import Mathlib

set_option maxRecDepth 100000

/-!
Verification development for the AISpace2 visualization core.

The definitions below are shallow embeddings of the layout engine
(`js/src/GraphLayout.ts`, bundled after `SearchVisualizer.vue`) and of the
CSP view's protocol handlers (`CSPViewer.ts`).  JavaScript numbers are
modelled by `JSNum` (a rational together with NaN and the two infinities,
following IEEE/JS arithmetic for the operations the code uses); an absent
(`undefined`) coordinate is modelled by `Option`.  The d3 force simulation
itself is an external library; its per-tick position update is taken as an
arbitrary function parameter, while the wrapper loop, the clamping, the
rescaling and the merge-back are translated literally from the source.
-/

/-- JavaScript number values relevant to the layout code: rationals plus
NaN and the two infinities. -/
inductive JSNum where
  | num (q : ℚ)
  | nan
  | posInf
  | negInf
deriving DecidableEq, Repr

/-- JavaScript unary negation. -/
def jneg : JSNum → JSNum
  | .num q => .num (-q)
  | .nan => .nan
  | .posInf => .negInf
  | .negInf => .posInf

/-- JavaScript addition. -/
def jadd : JSNum → JSNum → JSNum
  | .nan, _ => .nan
  | _, .nan => .nan
  | .posInf, .negInf => .nan
  | .negInf, .posInf => .nan
  | .posInf, _ => .posInf
  | _, .posInf => .posInf
  | .negInf, _ => .negInf
  | _, .negInf => .negInf
  | .num a, .num b => .num (a + b)

/-- JavaScript subtraction. -/
def jsub (a b : JSNum) : JSNum := jadd a (jneg b)

/-- JavaScript multiplication. -/
def jmul : JSNum → JSNum → JSNum
  | .nan, _ => .nan
  | _, .nan => .nan
  | .num a, .num b => .num (a * b)
  | .posInf, .posInf => .posInf
  | .posInf, .negInf => .negInf
  | .negInf, .posInf => .negInf
  | .negInf, .negInf => .posInf
  | .posInf, .num b => if b = 0 then .nan else if 0 < b then .posInf else .negInf
  | .num a, .posInf => if a = 0 then .nan else if 0 < a then .posInf else .negInf
  | .negInf, .num b => if b = 0 then .nan else if 0 < b then .negInf else .posInf
  | .num a, .negInf => if a = 0 then .nan else if 0 < a then .negInf else .posInf

/-- JavaScript division.  In particular `0 / 0` is NaN and `c / 0` for
nonzero `c` is a signed infinity. -/
def jdiv : JSNum → JSNum → JSNum
  | .nan, _ => .nan
  | _, .nan => .nan
  | .num a, .num b =>
    if b = 0 then (if a = 0 then .nan else if 0 < a then .posInf else .negInf)
    else .num (a / b)
  | .posInf, .num b => if 0 ≤ b then .posInf else .negInf
  | .negInf, .num b => if 0 ≤ b then .negInf else .posInf
  | .num _, .posInf => .num 0
  | .num _, .negInf => .num 0
  | .posInf, _ => .nan
  | .negInf, _ => .nan

/-- JavaScript `Math.max` (NaN-propagating). -/
def jmax : JSNum → JSNum → JSNum
  | .nan, _ => .nan
  | _, .nan => .nan
  | .posInf, _ => .posInf
  | _, .posInf => .posInf
  | .negInf, b => b
  | a, .negInf => a
  | .num a, .num b => .num (max a b)

/-- JavaScript `Math.min` (NaN-propagating). -/
def jmin : JSNum → JSNum → JSNum
  | .nan, _ => .nan
  | _, .nan => .nan
  | .negInf, _ => .negInf
  | _, .negInf => .negInf
  | .posInf, b => b
  | a, .posInf => a
  | .num a, .num b => .num (min a b)

/-- JavaScript falsiness of an optional numeric field: `undefined`, `0`
and NaN are falsy (this is the `!node.x` test in the source). -/
def jsFalsy : Option JSNum → Bool
  | none => true
  | some .nan => true
  | some (.num q) => q = 0
  | some _ => false

/-- JavaScript strict equality `===` on possibly-undefined numbers:
`undefined === undefined` is true, `NaN === NaN` is false. -/
def jsStrictEq : Option JSNum → Option JSNum → Bool
  | none, none => true
  | some .nan, some _ => false
  | some _, some .nan => false
  | some a, some b => a == b
  | _, _ => false

/-- Layout parameters (`IGraphLayoutParams`): available width and height. -/
structure LayoutParams where
  width : ℚ
  height : ℚ
deriving DecidableEq, Repr

/-- A graph node as the layout engine sees it: optional x/y coordinates
(absent until a layout assigns them). -/
structure SNode where
  x : Option JSNum
  y : Option JSNum
deriving DecidableEq, Repr

/-- A bounding box accumulator (minX/minY/maxX/maxY in
`scaleNodePositions`). -/
structure BBox where
  minX : JSNum
  minY : JSNum
  maxX : JSNum
  maxY : JSNum
deriving DecidableEq, Repr

/-- `Number.MAX_SAFE_INTEGER`. -/
def maxSafeInteger : ℚ := 9007199254740991

/-- One step of the bounding-box fold in `scaleNodePositions`: nodes with
a falsy coordinate are skipped. -/
def bboxStep (b : BBox) (n : SNode) : BBox :=
  if jsFalsy n.x || jsFalsy n.y then b
  else
    { minX := jmin (n.x.getD .nan) b.minX
      minY := jmin (n.y.getD .nan) b.minY
      maxX := jmax (n.x.getD .nan) b.maxX
      maxY := jmax (n.y.getD .nan) b.maxY }

/-- Bounding box of the positioned nodes, starting from the
MAX_SAFE_INTEGER / MIN_SAFE_INTEGER sentinels as in the source. -/
def computeBBox (nodes : List SNode) : BBox :=
  nodes.foldl bboxStep
    { minX := .num maxSafeInteger
      minY := .num maxSafeInteger
      maxX := .num (-maxSafeInteger)
      maxY := .num (-maxSafeInteger) }

/-- The per-node remap of `scaleNodePositions`: skip nodes with a falsy
coordinate, otherwise linearly remap both axes into
`[edgePadding, dimension - edgePadding]` with `edgePadding = 60`. -/
def scaleOne (p : LayoutParams) (b : BBox) (n : SNode) : SNode :=
  if jsFalsy n.x || jsFalsy n.y then n
  else
    { x := some (jadd
        (jdiv (jmul (.num (p.width - 60 * 2)) (jsub (n.x.getD .nan) b.minX))
          (jsub b.maxX b.minX))
        (.num 60))
      y := some (jadd
        (jdiv (jmul (.num (p.height - 60 * 2)) (jsub (n.y.getD .nan) b.minY))
          (jsub b.maxY b.minY))
        (.num 60)) }

/-- Embedding of `scaleNodePositions(layoutParams, nodes)`. -/
def scaleNodePositions (p : LayoutParams) (nodes : List SNode) : List SNode :=
  nodes.map (scaleOne p (computeBBox nodes))

/-- Embedding of `relativeLayout()`: it just calls `scaleNodePositions`. -/
def relativeLayout (p : LayoutParams) (nodes : List SNode) : List SNode :=
  scaleNodePositions p nodes

/-- Clamp used inside the force-layout loop:
`Math.max(edgePadding, Math.min(dimension - edgePadding, v))`. -/
def clampCoord (lo hi v : ℚ) : ℚ := max lo (min hi v)

/-- One iteration of the force-layout loop: one simulation tick (the
d3-internal update, taken as a parameter) followed by clamping every
position into `[50, dimension - 50]` on both axes. -/
def forceStep (p : LayoutParams) (tick : List (ℚ × ℚ) → List (ℚ × ℚ))
    (s : List (ℚ × ℚ)) : List (ℚ × ℚ) :=
  (tick s).map (fun c =>
    (clampCoord 50 (p.width - 50) c.1, clampCoord 50 (p.height - 50) c.2))

/-- The merge-back at the end of `d3ForceLayout`: walk the simulated copy
and the (already rescaled) original nodes in parallel, writing a simulated
coordinate only where the original's coordinate is falsy. -/
def mergeMissing : List SNode → List (ℚ × ℚ) → List SNode
  | [], _ => []
  | ns, [] => ns
  | n :: ns, c :: cs =>
    { x := if jsFalsy n.x then some (.num c.1) else n.x
      y := if jsFalsy n.y then some (.num c.2) else n.y } :: mergeMissing ns cs

/-- Embedding of `d3ForceLayout()`: run the simulation for exactly 300
ticks, clamping after each tick; then rescale the original nodes with
`scaleNodePositions`; then copy simulated positions back only into nodes
whose coordinate is still falsy.  `tick` is the d3-internal force update
and `init` the d3-assigned initial positions of the deep copy, both
external to the repository. -/
def d3ForceLayout (tick : List (ℚ × ℚ) → List (ℚ × ℚ))
    (init : List (ℚ × ℚ)) (p : LayoutParams) (nodes : List SNode) : List SNode :=
  mergeMissing (scaleNodePositions p nodes) ((forceStep p tick)^[300] init)

/-!
CSP protocol model (`CSPViewer.ts`).  Nodes and edges carry the mutable
attributes the handlers touch: `domain` and the style bag's `stroke` and
`strokeWidth`.  JavaScript objects are open, so an edge also carries a
`domain` slot (a `SetDomains` event naming an edge id would simply store
a domain on the edge object).
-/

/-- Mutable style bag fields used by the CSP handlers. -/
structure PStyles where
  stroke : Option String
  strokeWidth : Option ℚ
deriving DecidableEq, Repr

/-- A CSP graph node (`ICSPGraphNode`): id, optional domain, styles. -/
structure PNode where
  id : String
  domain : Option (List String)
  styles : PStyles
deriving DecidableEq, Repr

/-- A CSP graph edge (`IGraphEdge`): id, endpoint ids, styles, plus an
open `domain` slot (see module comment). -/
structure PEdge where
  id : String
  sourceId : String
  targetId : String
  domain : Option (List String)
  styles : PStyles
deriving DecidableEq, Repr

/-- The CSP graph: node list and edge list. -/
structure CSPGraph where
  nodes : List PNode
  edges : List PEdge
deriving DecidableEq, Repr

/-- Modelled from the spec: the `Graph` class (not under `src/`) keeps a
derived `idMap` that is exactly the union of current node ids and edge
ids, pointing at the live objects.  `idMapHasId` is the membership test;
an id absent from the map dereferences to `undefined` in the source. -/
def idMapHasId (g : CSPGraph) (i : String) : Bool :=
  g.nodes.any (fun n => n.id == i) || g.edges.any (fun e => e.id == i)

/-- Write a domain through the idMap: updates the node (or edge) whose id
matches.  Ids are unique, so mapping over both lists updates exactly the
one live object. -/
def setDomainById (g : CSPGraph) (i : String) (d : Option (List String)) : CSPGraph :=
  { nodes := g.nodes.map (fun n => if n.id == i then { n with domain := d } else n)
    edges := g.edges.map (fun e => if e.id == i then { e with domain := d } else e) }

/-- Write stroke and strokeWidth through the idMap (the two `$set` calls
of the highlight handlers). -/
def setStylesById (g : CSPGraph) (i : String) (stroke : Option String)
    (width : ℚ) : CSPGraph :=
  { nodes := g.nodes.map (fun n =>
      if n.id == i then { n with styles := { stroke := stroke, strokeWidth := some width } } else n)
    edges := g.edges.map (fun e =>
      if e.id == i then { e with styles := { stroke := stroke, strokeWidth := some width } } else e) }

/-- Current stroke of the entity with the given id (the
`idMap[arcId].styles.stroke` read). -/
def currentStroke (g : CSPGraph) (i : String) : Option String :=
  match g.nodes.find? (fun n => n.id == i) with
  | some n => n.styles.stroke
  | none =>
    match g.edges.find? (fun e => e.id == i) with
    | some e => e.styles.stroke
    | none => none

/-- Current domain of the node with the given id. -/
def nodeDomain (g : CSPGraph) (i : String) : Option (List String) :=
  match g.nodes.find? (fun n => n.id == i) with
  | some n => n.domain
  | none => none

/-- JavaScript truthiness of an optional string (`event.colour ? ... : ...`):
`undefined` and the empty string are falsy. -/
def strTruthy : Option String → Bool
  | none => false
  | some s => !(s == "")

/-- The `arcIds == null` branch of `highlightArcs`: every edge gets the
given stroke (or keeps its own when the colour is falsy) and the width. -/
def highlightArcsAll (g : CSPGraph) (colour : Option String) (style : String) : CSPGraph :=
  let width : ℚ := if style = "bold" then 7 else 4
  { g with
    edges := g.edges.map (fun e =>
      { e with styles :=
        { stroke := if strTruthy colour then colour else e.styles.stroke
          strokeWidth := some width } }) }

/-- The explicit-ids branch of `highlightArcs`.  An id absent from the
idMap makes the source dereference `undefined` and throw; the returned
flag records the thrown TypeError, and the graph mutated so far is kept
(JavaScript mutates in place). -/
def highlightArcsList (g : CSPGraph) (colour : Option String) (width : ℚ) :
    List String → CSPGraph × Bool
  | [] => (g, false)
  | i :: rest =>
    if idMapHasId g i then
      highlightArcsList
        (setStylesById g i (if strTruthy colour then colour else currentStroke g i) width)
        colour width rest
    else (g, true)

/-- Embedding of `CSPViewer.highlightArcs`. -/
def highlightArcs (g : CSPGraph) (arcIds : Option (List String))
    (colour : Option String) (style : String) : CSPGraph × Bool :=
  let width : ℚ := if style = "bold" then 7 else 4
  match arcIds with
  | none => (highlightArcsAll g colour style, false)
  | some ids => highlightArcsList g colour width ids

/-- Embedding of `CSPViewer.highlightNodes`: stroke to the event colour,
width fixed at 2; unknown id throws as in `highlightArcsList`. -/
def highlightNodesList (g : CSPGraph) (colour : String) :
    List String → CSPGraph × Bool
  | [] => (g, false)
  | i :: rest =>
    if idMapHasId g i then
      highlightNodesList (setStylesById g i (some colour) 2) colour rest
    else (g, true)

/-- Embedding of `CSPViewer.setDomains`: walks `nodeIds` by index and
assigns `domains[i]` (which is `undefined`, i.e. `none`, once `i` runs
past the end of `domains`).  No length check is performed.  An unknown id
throws, keeping the mutations already applied. -/
def setDomainsList (g : CSPGraph) : List String → List (List String) → CSPGraph × Bool
  | [], _ => (g, false)
  | i :: rest, ds =>
    if idMapHasId g i then
      setDomainsList (setDomainById g i ds.head?) rest ds.tail
    else (g, true)

/-- The inbound mutation events of the claim set. -/
inductive MutEvent where
  | highlightArcsEvent (arcIds : Option (List String)) (colour : Option String) (style : String)
  | highlightNodesEvent (nodeIds : List String) (colour : String)
  | setDomainsEvent (nodeIds : List String) (domains : List (List String))
deriving DecidableEq, Repr

/-- Dispatch of an inbound mutation event, as in `CSPViewer.initialize`. -/
def applyMut (g : CSPGraph) : MutEvent → CSPGraph × Bool
  | .highlightArcsEvent ids colour style => highlightArcs g ids colour style
  | .highlightNodesEvent ids colour => highlightNodesList g colour ids
  | .setDomainsEvent ids ds => setDomainsList g ids ds

/-- The id list an explicit mutation event iterates over. -/
def evIds : MutEvent → List String
  | .highlightArcsEvent (some ids) _ _ => ids
  | .highlightArcsEvent none _ _ => []
  | .highlightNodesEvent ids _ => ids
  | .setDomainsEvent ids _ => ids

/-- The same event with its id list replaced (used to state that a run
which throws equals the run over the known prefix). -/
def setEvIds : MutEvent → List String → MutEvent
  | .highlightArcsEvent _ c s, ids => .highlightArcsEvent (some ids) c s
  | .highlightNodesEvent _ c, ids => .highlightNodesEvent ids c
  | .setDomainsEvent _ ds, ids => .setDomainsEvent ids ds

/-- View state crossing a re-render boundary: the `previouslyRendered`
flag, the log of events sent to the controller, and the live graph. -/
structure ViewState where
  previouslyRendered : Bool
  sent : List String
  graph : CSPGraph
deriving DecidableEq, Repr

/-- Embedding of `CSPViewer.render` (lines 88-97 of `CSPViewer.ts`):
when `previouslyRendered` is false, send `initial_render` and apply the
default highlight-everything-blue bootstrap.  Modelled from the spec:
the flag itself lives on `CSPViewerModel` (not under `src/`); per the
spec it is set on first render and survives re-renders of the same
logical instance. -/
def render (s : ViewState) : ViewState :=
  if s.previouslyRendered then s
  else
    { previouslyRendered := true
      sent := s.sent ++ ["initial_render"]
      graph := highlightArcsAll s.graph (some "blue") "normal" }

/-- Splitting a JavaScript string on commas (`domainString.split(",")`),
modelled on the character list. -/
def splitCommaAux : List Char → List Char → List String
  | [], acc => [String.mk acc.reverse]
  | c :: cs, acc =>
    if c = ',' then String.mk acc.reverse :: splitCommaAux cs []
    else splitCommaAux cs (c :: acc)

/-- JavaScript `s.split(",")`. -/
def splitComma (s : String) : List String := splitCommaAux s.data []

/-- An outbound protocol message with the fields of `DomainSplitReply`. -/
structure OutMsg where
  event : String
  domain : Option (List String)
deriving DecidableEq, Repr

/-- Embedding of the `ChooseDomainSplit` branch of `CSPViewer.initialize`:
`response` is the value returned by `window.prompt` (`none` on cancel).
A non-null response is split on commas and falsy (empty) entries are
filtered out; the view then sends exactly one `domain_split` reply. -/
def chooseDomainSplit (response : Option String) : List OutMsg :=
  [{ event := "domain_split"
     domain :=
       match response with
       | some s => some ((splitComma s).filter (fun d => !(d == "")))
       | none => none }]

/-!
Tree layout model (`d3TreeLayout`).  The hierarchy construction and all
post-processing are translated from the source; the external
`d3.tree()`/`d3.hierarchy()` call is modelled by its documented contract:
it assigns normalized coordinates in `[0, 1]`, the breadth coordinate
being supplied as the `xNorm` parameter and the depth coordinate being
`depth / maxDepth`.  Node positions of nodes outside the built hierarchy
stay `undefined` (`none`), and the overlap pass's offset arithmetic runs
in the JavaScript number model, so unpositioned endpoints and zero-length
edges produce NaN offsets exactly as the source does.
-/

/-- Children list of an id in the hierarchy map. -/
def childrenOf (m : List (String × List String)) (i : String) : List String :=
  match m.find? (fun p => p.1 == i) with
  | some p => p.2
  | none => []

/-- Add an id with an empty child list if absent (the two
`if (!(... in map))` blocks). -/
def addIfAbsent (m : List (String × List String)) (i : String) :
    List (String × List String) :=
  if m.any (fun p => p.1 == i) then m else m ++ [(i, [])]

/-- Append a child to an id's children list. -/
def pushChild (m : List (String × List String)) (src tgt : String) :
    List (String × List String) :=
  m.map (fun p => if p.1 == src then (p.1, p.2 ++ [tgt]) else p)

/-- Hierarchy-construction state: the map from ids to children lists and
the `nodeMapInTree` set of already-attached targets. -/
structure TreeBuild where
  childrenMap : List (String × List String)
  inTree : List String
deriving DecidableEq, Repr

/-- Embedding of the edge-walking loop of `d3TreeLayout` (lines 315-347):
attach each edge's target as a child of its source, skipping the edge if
the reverse edge already created the opposite relationship or if the
target is already attached somewhere in the tree. -/
def buildHierarchy (rootId : String) (edges : List (String × String)) : TreeBuild :=
  edges.foldl
    (fun tb e =>
      let m1 := addIfAbsent tb.childrenMap e.2
      let m2 := addIfAbsent m1 e.1
      if (childrenOf m2 e.2).contains e.1 || tb.inTree.contains e.2 then
        { childrenMap := m2, inTree := tb.inTree }
      else
        { childrenMap := pushChild m2 e.1 e.2, inTree := tb.inTree ++ [e.2] })
    { childrenMap := [(rootId, [])], inTree := [] }

/-- Breadth-first levels of the hierarchy reachable from the root.  The
fuel bound `m.length + 1` is enough for every genuine tree (depth is at
most the number of ids in the map). -/
def levelsAux (m : List (String × List String)) : ℕ → List String → List (List String)
  | 0, _ => []
  | fuel + 1, current =>
    if current.isEmpty then []
    else current :: levelsAux m fuel (current.flatMap (fun i => childrenOf m i))

/-- Levels of the built hierarchy, root first. -/
def treeLevels (m : List (String × List String)) (rootId : String) : List (List String) :=
  levelsAux m (m.length + 1) [rootId]

/-- The y coordinate assigned to a node at the given depth: normalized
depth (`depth / maxDepth`, the d3.tree contract) remapped into bands of
`height / (maxDepth + 2)` as in the source. -/
def depthY (p : LayoutParams) (maxDepth d : ℕ) : ℚ :=
  let hd := p.height / ((maxDepth : ℚ) + 2)
  (if maxDepth = 0 then 0 else (d : ℚ) / (maxDepth : ℚ)) * (p.height - hd - hd) + hd

/-- Node geometry `(id, x, y, radius)` after the per-level repositioning
(lines 376-406): x from the normalized breadth coordinate, then, when the
shared level radius is positive, overridden by the non-overlapping
left-to-right placement `(2 * index + 1) * (radius + 15)`. -/
def treeNodeGeom (xNorm : String → ℚ) (p : LayoutParams)
    (levels : List (List String)) : List (String × ℚ × ℚ × ℚ) :=
  let maxDepth := levels.length - 1
  levels.enum.flatMap (fun dl =>
    let newradius := p.width / (dl.2.length : ℚ) / 2 - 15
    dl.2.enum.map (fun il =>
      let y := depthY p maxDepth dl.1
      if newradius ≤ 0 then (il.2, xNorm il.2 * p.width, y, 1)
      else ((il.2, (2 * (il.1 : ℚ) + 1) * (newradius + 15), y,
        if 50 ≤ newradius then 50 else newradius))))

/-- Position of an id in the computed geometry (the node object's x/y
read by the edge pass); `none` when the node never received a position
(it is not reachable in the built hierarchy), matching the source's
`undefined`. -/
def posOf (geo : List (String × ℚ × ℚ × ℚ)) (i : String) : Option (ℚ × ℚ) :=
  (geo.find? (fun t => t.1 == i)).map (fun t => (t.2.1, t.2.2.1))

/-- Edge styles touched by the overlap pass.  The endpoint slots hold
JavaScript numbers (possibly NaN, when the offset arithmetic ran on an
unpositioned node or a zero-length edge); `none` is `undefined`. -/
structure TStyles where
  overlapped : Option Bool
  x1 : Option JSNum
  y1 : Option JSNum
  x2 : Option JSNum
  y2 : Option JSNum
deriving DecidableEq, Repr

/-- A tree-layout edge: endpoint ids, the base endpoint slots written at
lines 413-418 (undefined when the endpoint node has no position), and the
style bag. -/
structure TEdge where
  sourceId : String
  targetId : String
  x1 : Option ℚ
  y1 : Option ℚ
  x2 : Option ℚ
  y2 : Option ℚ
  styles : TStyles
deriving DecidableEq, Repr

/-- Lines 413-418: copy the endpoint node positions onto each edge. -/
def setEdgeEndpoints (geo : List (String × ℚ × ℚ × ℚ)) (edges : List TEdge) : List TEdge :=
  edges.map (fun e =>
    { e with
      x1 := (posOf geo e.sourceId).map Prod.fst
      x2 := (posOf geo e.targetId).map Prod.fst
      y1 := (posOf geo e.sourceId).map Prod.snd
      y2 := (posOf geo e.targetId).map Prod.snd })

/-- Rational square root, exact on squares of rationals — the only values
the claims exercise (an irrational square root has no rational
representation, so elsewhere this is an approximation of `Math.sqrt`). -/
def ratSqrt (q : ℚ) : ℚ := (Nat.sqrt q.num.toNat : ℚ) / (Nat.sqrt q.den : ℚ)

/-- JavaScript `Math.sqrt` on the number model: NaN for NaN and negative
arguments, infinity for infinity, `ratSqrt` on nonnegative rationals. -/
def jsSqrt : JSNum → JSNum
  | .num q => if q < 0 then .nan else .num (ratSqrt q)
  | .nan => .nan
  | .posInf => .posInf
  | .negInf => .nan

/-- Coercion of a possibly-undefined coordinate into JavaScript numeric
arithmetic: `undefined` becomes NaN. -/
def jsNumOf : Option ℚ → JSNum
  | some q => .num q
  | none => .nan

/-- JavaScript `Math.pow(v, 2)`. -/
def jsPow2 (v : JSNum) : JSNum := jmul v v

/-- One probe of the overlapped-edge double loop (lines 420-446): if the
edges at positions `i` and `j` connect the same pair in opposite
directions and their style endpoints mirror each other under `===`
(undefined === undefined is true, NaN === NaN is false), both are marked
overlapped and displaced by the fixed radius 5 perpendicular to the
joining line; with an unpositioned endpoint or a zero-length edge the
cosine/sine arithmetic yields NaN, stored as such. -/
def overlapUpdate (geo : List (String × ℚ × ℚ × ℚ)) (es : List TEdge)
    (i j : ℕ) : List TEdge :=
  match es[i]?, es[j]? with
  | some e1, some e2 =>
    if e1.sourceId == e2.targetId && e1.targetId == e2.sourceId &&
        jsStrictEq e1.styles.x1 e2.styles.x2 && jsStrictEq e1.styles.x2 e2.styles.x1 then
      let xa := jsNumOf ((posOf geo e1.sourceId).map Prod.fst)
      let ya := jsNumOf ((posOf geo e1.sourceId).map Prod.snd)
      let xb := jsNumOf ((posOf geo e1.targetId).map Prod.fst)
      let yb := jsNumOf ((posOf geo e1.targetId).map Prod.snd)
      let dist := jsSqrt (jadd (jsPow2 (jsub yb ya)) (jsPow2 (jsub xb xa)))
      let c := jdiv (jsub yb ya) dist
      let s := jdiv (jsub xb xa) dist
      let e2a := { e2 with styles :=
        { overlapped := some true
          x1 := some (jadd (jmul c (.num 5)) xb), x2 := some (jadd (jmul c (.num 5)) xa)
          y1 := some (jsub yb (jmul s (.num 5))), y2 := some (jsub ya (jmul s (.num 5))) } }
      let e1a := { e1 with styles :=
        { overlapped := some true
          x1 := some (jsub xa (jmul c (.num 5))), x2 := some (jsub xb (jmul c (.num 5)))
          y1 := some (jadd (jmul s (.num 5)) ya), y2 := some (jadd (jmul s (.num 5)) yb) } }
      (es.set i e1a).set j e2a
    else es
  | _, _ => es

/-- The full nested `forEach` over edge pairs. -/
def overlapPass (geo : List (String × ℚ × ℚ × ℚ)) (es : List TEdge) : List TEdge :=
  (List.range es.length).foldl
    (fun acc i => (List.range es.length).foldl (fun acc2 j => overlapUpdate geo acc2 i j) acc)
    es

/-- Embedding of `d3TreeLayout`: root selection (explicit id if present,
else the first node), hierarchy construction, level geometry, edge
endpoint copy and the overlap pass.  Returns the node geometry and the
processed edges; an empty graph resolves immediately. -/
def d3TreeLayout (xNorm : String → ℚ) (rootId : Option String)
    (nodeIds : List String) (edges : List TEdge) (p : LayoutParams) :
    List (String × ℚ × ℚ × ℚ) × List TEdge :=
  match nodeIds with
  | [] => ([], edges)
  | first :: _ =>
    let root :=
      match rootId with
      | some r => if nodeIds.contains r then r else first
      | none => first
    let tb := buildHierarchy root (edges.map (fun e => (e.sourceId, e.targetId)))
    let levels := treeLevels tb.childrenMap root
    let geo := treeNodeGeom xNorm p levels
    (geo, overlapPass geo (setEdgeEndpoints geo edges))

/-- A fresh tree edge with no endpoint or style data yet. -/
def mkTEdge (src tgt : String) : TEdge :=
  ⟨src, tgt, none, none, none, none, ⟨none, none, none, none, none⟩⟩

/-!
Arithmetic lemmas about the JavaScript number model.
-/

theorem jadd_num (a b : ℚ) : jadd (.num a) (.num b) = .num (a + b) := rfl

theorem jsub_num (a b : ℚ) : jsub (.num a) (.num b) = .num (a - b) := by
  show jadd (.num a) (.num (-b)) = .num (a - b)
  rw [jadd_num]
  congr 1
  ring

theorem jmul_num (a b : ℚ) : jmul (.num a) (.num b) = .num (a * b) := rfl

theorem jdiv_num (a b : ℚ) (hb : b ≠ 0) : jdiv (.num a) (.num b) = .num (a / b) := by
  simp [jdiv, hb]

theorem list_map_self {α : Type} {f : α → α} {l : List α}
    (h : ∀ a ∈ l, f a = a) : l.map f = l := by
  induction l with
  | nil => rfl
  | cons x xs ih =>
    simp only [List.map_cons]
    rw [h x (List.mem_cons_self x xs), ih fun a ha => h a (List.mem_cons_of_mem _ ha)]

/-- Remapping one axis from the padded bounding box back into the padded
range is the identity, for every non-NaN value. -/
theorem scaleAxis_id (w : ℚ) (hw : 120 < w) (v : JSNum) (hv : v ≠ .nan) :
    jadd (jdiv (jmul (.num (w - 60 * 2)) (jsub v (.num 60)))
      (jsub (.num (w - 60)) (.num 60))) (.num 60) = v := by
  have h2 : (0 : ℚ) < w - 60 * 2 := by linarith
  have h1 : w - 60 - 60 ≠ 0 := by
    intro h
    have : (0 : ℚ) < w - 60 - 60 := by linarith
    simp [h] at this
  rw [jsub_num]
  cases v with
  | num q =>
    rw [jsub_num, jmul_num, jdiv_num _ _ h1, jadd_num]
    congr 1
    have e : w - 60 - 60 = w - 60 * 2 := by ring
    rw [e]
    field_simp
  | nan => exact absurd rfl hv
  | posInf =>
    have e1 : jsub JSNum.posInf (.num 60) = .posInf := rfl
    have e2 : jmul (.num (w - 60 * 2)) .posInf = .posInf := by
      simp [jmul, ne_of_gt h2, h2]
    have e3 : jdiv JSNum.posInf (.num (w - 60 - 60)) = .posInf := by
      simp [jdiv, le_of_lt (show (0 : ℚ) < w - 60 - 60 by linarith)]
    rw [e1, e2, e3]
    rfl
  | negInf =>
    have e1 : jsub JSNum.negInf (.num 60) = .negInf := rfl
    have e2 : jmul (.num (w - 60 * 2)) .negInf = .negInf := by
      simp [jmul, ne_of_gt h2, h2]
    have e3 : jdiv JSNum.negInf (.num (w - 60 - 60)) = .negInf := by
      simp [jdiv, le_of_lt (show (0 : ℚ) < w - 60 - 60 by linarith)]
    rw [e1, e2, e3]
    rfl

/-- A node whose coordinate is falsy passes through `scaleOne` unchanged. -/
theorem scaleOne_skip (p : LayoutParams) (b : BBox) (n : SNode)
    (h : (jsFalsy n.x || jsFalsy n.y) = true) : scaleOne p b n = n := by
  simp [scaleOne, h]

/-- When the bounding box already spans the padded canvas and both
dimensions exceed twice the padding, `scaleOne` is the identity. -/
theorem scaleOne_id (p : LayoutParams) (hw : 120 < p.width) (hh : 120 < p.height)
    (n : SNode) :
    scaleOne p ⟨.num 60, .num 60, .num (p.width - 60), .num (p.height - 60)⟩ n = n := by
  rcases n with ⟨x, y⟩
  by_cases hf : (jsFalsy x || jsFalsy y) = true
  · exact scaleOne_skip p _ _ hf
  · have hfx : jsFalsy x = false := by
      cases hx : jsFalsy x
      · rfl
      · simp [hx] at hf
    have hfy : jsFalsy y = false := by
      cases hy : jsFalsy y
      · rfl
      · simp [hy] at hf
    rcases x with _ | xv
    · simp [jsFalsy] at hfx
    rcases y with _ | yv
    · simp [jsFalsy] at hfy
    have hxn : xv ≠ .nan := by
      rintro rfl
      simp [jsFalsy] at hfx
    have hyn : yv ≠ .nan := by
      rintro rfl
      simp [jsFalsy] at hfy
    rw [scaleOne, if_neg (by simp [hfx, hfy])]
    simp only [Option.getD_some]
    congr 1
    · exact congrArg some (scaleAxis_id p.width hw xv hxn)
    · exact congrArg some (scaleAxis_id p.height hh yv hyn)

/-- C4: claim as stated is refuted.  Applying the rescale layout with the
same params under which the nodes were last placed (here: by the rescale
layout itself, with width = height = 100) moves every node, because with
dimensions below twice the padding the remap reverses the bounding box. -/
theorem rescale_identity_counterexample :
    scaleNodePositions ⟨100, 100⟩ (scaleNodePositions ⟨100, 100⟩
      [⟨some (.num 10), some (.num 10)⟩, ⟨some (.num 30), some (.num 30)⟩]) ≠
    scaleNodePositions ⟨100, 100⟩
      [⟨some (.num 10), some (.num 10)⟩, ⟨some (.num 30), some (.num 30)⟩] := by
  with_unfolding_all decide

/-- C4 (amended): the rescale layout is the identity transform provided
width and height exceed twice the padding (120) and the positioned nodes'
bounding box already spans the padded canvas `[60, dim - 60]` on both
axes — which is exactly the state a prior rescale under the same params
leaves behind when the spread is nondegenerate. -/
theorem rescale_identity_on_padded_box (p : LayoutParams) (nodes : List SNode)
    (hw : 120 < p.width) (hh : 120 < p.height)
    (hbox : computeBBox nodes =
      ⟨.num 60, .num 60, .num (p.width - 60), .num (p.height - 60)⟩) :
    relativeLayout p nodes = nodes := by
  unfold relativeLayout scaleNodePositions
  rw [hbox]
  exact list_map_self fun n _ => scaleOne_id p hw hh n

/-- C4 witness: a concrete graph spanning the padded 200 by 200 canvas. -/
theorem rescale_identity_on_padded_box_witness :
    (120 : ℚ) < 200 ∧
    computeBBox [⟨some (.num 60), some (.num 60)⟩, ⟨some (.num 140), some (.num 140)⟩] =
      ⟨.num 60, .num 60, .num (200 - 60), .num (200 - 60)⟩ ∧
    relativeLayout ⟨200, 200⟩
        [⟨some (.num 60), some (.num 60)⟩, ⟨some (.num 140), some (.num 140)⟩] =
      [⟨some (.num 60), some (.num 60)⟩, ⟨some (.num 140), some (.num 140)⟩] :=
  ⟨by norm_num, by with_unfolding_all decide,
    rescale_identity_on_padded_box ⟨200, 200⟩ _ (by norm_num) (by norm_num)
      (by with_unfolding_all decide)⟩

/-- C5: the code bug evaluated.  A graph whose positioned nodes share a
single x (and y) value makes `scaleNodePositions` compute `0 / 0`, and
the node's coordinates become NaN instead of being left unchanged. -/
theorem rescale_zero_extent_produces_nan :
    scaleNodePositions ⟨500, 500⟩ [⟨some (.num 100), some (.num 100)⟩]
      = [⟨some .nan, some .nan⟩] := by
  with_unfolding_all decide

/-- The merge-back loop never touches a node both of whose coordinates
are truthy. -/
theorem mergeMissing_of_truthy (ns : List SNode) (cs : List (ℚ × ℚ))
    (h : ∀ n ∈ ns, jsFalsy n.x = false ∧ jsFalsy n.y = false) :
    mergeMissing ns cs = ns := by
  induction ns generalizing cs with
  | nil => cases cs <;> rfl
  | cons n ns ih =>
    cases cs with
    | nil => rfl
    | cons c cs =>
      have hn := h n (List.mem_cons_self n ns)
      simp only [mergeMissing, hn.1, hn.2, Bool.false_eq_true, if_false]
      rw [ih _ fun a ha => h a (List.mem_cons_of_mem _ ha)]

/-- C1: claim as stated is refuted.  Force layout on a graph whose nodes
are all positioned does not keep their coordinates: the call to
`scaleNodePositions` on the original nodes moves (100, 100) to (60, 60). -/
theorem force_layout_counterexample :
    d3ForceLayout id [(0, 0), (0, 0)] ⟨1000, 1000⟩
        [⟨some (.num 100), some (.num 100)⟩, ⟨some (.num 200), some (.num 200)⟩] ≠
      [⟨some (.num 100), some (.num 100)⟩, ⟨some (.num 200), some (.num 200)⟩] := by
  have h2 : d3ForceLayout id [(0, 0), (0, 0)] ⟨1000, 1000⟩
      [⟨some (.num 100), some (.num 100)⟩, ⟨some (.num 200), some (.num 200)⟩] =
      scaleNodePositions ⟨1000, 1000⟩
        [⟨some (.num 100), some (.num 100)⟩, ⟨some (.num 200), some (.num 200)⟩] := by
    unfold d3ForceLayout
    exact mergeMissing_of_truthy _ _ (by with_unfolding_all decide)
  rw [h2]
  with_unfolding_all decide

/-- C1 (amended): the merge step writes simulated positions only into
nodes with a falsy coordinate, but already-positioned nodes are first
rescaled rather than left untouched: whenever the rescaled nodes are all
truthy on both axes, force layout equals the rescale step, for every
simulation behaviour (`tick`/`init`). -/
theorem force_layout_equals_rescale_when_positioned (p : LayoutParams)
    (tick : List (ℚ × ℚ) → List (ℚ × ℚ)) (init : List (ℚ × ℚ)) (nodes : List SNode)
    (hpos : ∀ n ∈ scaleNodePositions p nodes,
      jsFalsy n.x = false ∧ jsFalsy n.y = false) :
    d3ForceLayout tick init p nodes = scaleNodePositions p nodes := by
  unfold d3ForceLayout
  exact mergeMissing_of_truthy _ _ hpos

/-- C1 witness: the amended statement at a concrete fully-positioned
graph. -/
theorem force_layout_equals_rescale_when_positioned_witness :
    (∀ n ∈ scaleNodePositions ⟨1000, 1000⟩
        [⟨some (.num 100), some (.num 100)⟩, ⟨some (.num 200), some (.num 200)⟩],
      jsFalsy n.x = false ∧ jsFalsy n.y = false) ∧
    d3ForceLayout id [(0, 0), (0, 0)] ⟨1000, 1000⟩
        [⟨some (.num 100), some (.num 100)⟩, ⟨some (.num 200), some (.num 200)⟩] =
      scaleNodePositions ⟨1000, 1000⟩
        [⟨some (.num 100), some (.num 100)⟩, ⟨some (.num 200), some (.num 200)⟩] :=
  ⟨by with_unfolding_all decide,
    force_layout_equals_rescale_when_positioned _ id _ _ (by with_unfolding_all decide)⟩

/-- Every coordinate produced by a clamped simulation step lies in the
padded canvas, provided each dimension is at least twice the padding. -/
theorem forceStep_bounds (p : LayoutParams) (tick : List (ℚ × ℚ) → List (ℚ × ℚ))
    (s : List (ℚ × ℚ)) (hw : 100 ≤ p.width) (hh : 100 ≤ p.height) :
    ∀ c ∈ forceStep p tick s,
      50 ≤ c.1 ∧ c.1 ≤ p.width - 50 ∧ 50 ≤ c.2 ∧ c.2 ≤ p.height - 50 := by
  intro c hc
  unfold forceStep at hc
  obtain ⟨d, _, rfl⟩ := List.mem_map.mp hc
  unfold clampCoord
  exact ⟨le_max_left _ _, max_le (by linarith) (min_le_left _ _),
    le_max_left _ _, max_le (by linarith) (min_le_left _ _)⟩

/-- The bound holds after every step from the first onwards. -/
theorem iterate_forceStep_bounds (p : LayoutParams)
    (tick : List (ℚ × ℚ) → List (ℚ × ℚ)) (init : List (ℚ × ℚ))
    (hw : 100 ≤ p.width) (hh : 100 ≤ p.height) (k : ℕ) (hk : 1 ≤ k) :
    ∀ c ∈ (forceStep p tick)^[k] init,
      50 ≤ c.1 ∧ c.1 ≤ p.width - 50 ∧ 50 ≤ c.2 ∧ c.2 ≤ p.height - 50 := by
  obtain ⟨j, rfl⟩ : ∃ j, k = j + 1 := ⟨k - 1, by omega⟩
  rw [Function.iterate_succ_apply']
  exact forceStep_bounds p tick _ hw hh

theorem forceStep_length (p : LayoutParams) (tick : List (ℚ × ℚ) → List (ℚ × ℚ))
    (s : List (ℚ × ℚ)) (ht : (tick s).length = s.length) :
    (forceStep p tick s).length = s.length := by
  simp [forceStep, ht]

theorem iterate_forceStep_length (p : LayoutParams)
    (tick : List (ℚ × ℚ) → List (ℚ × ℚ)) (init : List (ℚ × ℚ))
    (ht : ∀ s, (tick s).length = s.length) (k : ℕ) :
    ((forceStep p tick)^[k] init).length = init.length := by
  induction k with
  | zero => rfl
  | succ j ih => rw [Function.iterate_succ_apply', forceStep_length _ _ _ (ht _), ih]

/-- A graph with no positions at all passes through `scaleNodePositions`
unchanged. -/
theorem scale_of_unpositioned (p : LayoutParams) (nodes : List SNode)
    (h : ∀ n ∈ nodes, n.x = none ∧ n.y = none) :
    scaleNodePositions p nodes = nodes := by
  unfold scaleNodePositions
  exact list_map_self fun n hn =>
    scaleOne_skip p _ n (by rcases h n hn with ⟨h1, h2⟩; simp [h1, h2, jsFalsy])

/-- Merging simulated positions into fully unpositioned nodes yields, for
every output node, some simulated coordinate pair. -/
theorem mergeMissing_mem_of_unpositioned (ns : List SNode) (cs : List (ℚ × ℚ))
    (hlen : ns.length = cs.length) (h : ∀ n ∈ ns, n.x = none ∧ n.y = none) :
    ∀ m ∈ mergeMissing ns cs, ∃ c ∈ cs, m = ⟨some (.num c.1), some (.num c.2)⟩ := by
  induction ns generalizing cs with
  | nil =>
    intro m hm
    simp [mergeMissing] at hm
  | cons n ns ih =>
    cases cs with
    | nil => simp at hlen
    | cons c cs =>
      intro m hm
      rcases h n (List.mem_cons_self n ns) with ⟨h1, h2⟩
      have e : mergeMissing (n :: ns) (c :: cs)
          = ⟨some (.num c.1), some (.num c.2)⟩ :: mergeMissing ns cs := by
        simp [mergeMissing, h1, h2, jsFalsy]
      rw [e] at hm
      rcases List.mem_cons.mp hm with rfl | hm2
      · exact ⟨c, List.mem_cons_self c cs, rfl⟩
      · obtain ⟨d, hd, rfl⟩ :=
          ih cs (by simpa using hlen) (fun a ha => h a (List.mem_cons_of_mem _ ha)) m hm2
        exact ⟨d, List.mem_cons_of_mem _ hd, rfl⟩

/-- C6: claim as stated is refuted.  With positive dimensions below twice
the padding (80 by 80), the clamp pins the single node at coordinate 50,
which is outside the claimed interval `[padding, width - padding]`
because that interval is empty. -/
theorem force_layout_bounds_counterexample :
    d3ForceLayout id [(0, 0)] ⟨80, 80⟩ [⟨none, none⟩]
      = [⟨some (.num 50), some (.num 50)⟩] ∧ ¬((50 : ℚ) ≤ 80 - 50) := by
  constructor
  · have h1 : forceStep ⟨80, 80⟩ id [((0 : ℚ), (0 : ℚ))] = [(50, 50)] := by
      with_unfolding_all decide
    have h2 : forceStep ⟨80, 80⟩ id [((50 : ℚ), (50 : ℚ))] = [(50, 50)] := by
      with_unfolding_all decide
    have h3 : (forceStep ⟨80, 80⟩ id)^[300] [((0 : ℚ), (0 : ℚ))] = [(50, 50)] := by
      rw [show (300 : ℕ) = 299 + 1 from rfl, Function.iterate_succ_apply, h1,
        Function.iterate_fixed h2]
    unfold d3ForceLayout
    rw [h3]
    with_unfolding_all decide
  · norm_num

/-- C6 (amended): on a fully unpositioned graph with width and height at
least twice the padding (100), the force layout runs exactly 300 clamped
steps — after every step from the first on, all simulated coordinates lie
in `[50, dimension - 50]` — and every node of the result is assigned a
position inside `[padding, dimension - padding]` on both axes, for every
length-preserving simulation behaviour. -/
theorem force_layout_bounds (p : LayoutParams)
    (tick : List (ℚ × ℚ) → List (ℚ × ℚ)) (init : List (ℚ × ℚ)) (nodes : List SNode)
    (hw : 100 ≤ p.width) (hh : 100 ≤ p.height)
    (hunpos : ∀ n ∈ nodes, n.x = none ∧ n.y = none)
    (hlen : init.length = nodes.length)
    (htick : ∀ s, (tick s).length = s.length) :
    (∀ k, 1 ≤ k → ∀ c ∈ (forceStep p tick)^[k] init,
      50 ≤ c.1 ∧ c.1 ≤ p.width - 50 ∧ 50 ≤ c.2 ∧ c.2 ≤ p.height - 50) ∧
    (∀ m ∈ d3ForceLayout tick init p nodes, ∃ qx qy,
      m.x = some (.num qx) ∧ m.y = some (.num qy) ∧
      50 ≤ qx ∧ qx ≤ p.width - 50 ∧ 50 ≤ qy ∧ qy ≤ p.height - 50) := by
  constructor
  · intro k hk
    exact iterate_forceStep_bounds p tick init hw hh k hk
  · intro m hm
    unfold d3ForceLayout at hm
    rw [scale_of_unpositioned p nodes hunpos] at hm
    have hlen2 : nodes.length = ((forceStep p tick)^[300] init).length := by
      rw [iterate_forceStep_length p tick init htick 300]
      exact hlen.symm
    obtain ⟨c, hc, rfl⟩ := mergeMissing_mem_of_unpositioned _ _ hlen2 hunpos m hm
    have hb := iterate_forceStep_bounds p tick init hw hh 300 (by norm_num) c hc
    exact ⟨c.1, c.2, rfl, rfl, hb.1, hb.2.1, hb.2.2.1, hb.2.2.2⟩

/-- C6 witness: the amended statement at a concrete 100 by 100 canvas. -/
theorem force_layout_bounds_witness :
    (100 : ℚ) ≤ 100 ∧
    (∀ m ∈ d3ForceLayout id [(0, 0)] ⟨100, 100⟩ [⟨none, none⟩], ∃ qx qy,
      m.x = some (.num qx) ∧ m.y = some (.num qy) ∧
      50 ≤ qx ∧ qx ≤ 100 - 50 ∧ 50 ≤ qy ∧ qy ≤ 100 - 50) :=
  ⟨le_refl _,
    (force_layout_bounds ⟨100, 100⟩ id [(0, 0)] [⟨none, none⟩] (le_refl _) (le_refl _)
      (by decide) rfl (fun _ => rfl)).2⟩

/-- Indexed form of the merge-back when an original coordinate is falsy:
the simulated value is written. -/
theorem mergeMissing_getElem_falsy (ns : List SNode) (cs : List (ℚ × ℚ)) (i : ℕ)
    (hi : i < ns.length) (hc : i < cs.length) (hx : jsFalsy ns[i].x = true) :
    ∃ m, (mergeMissing ns cs)[i]? = some m ∧
      m.x = some (.num cs[i].1) ∧
      m.y = (if jsFalsy ns[i].y then some (.num cs[i].2) else ns[i].y) := by
  induction ns generalizing cs i with
  | nil => simp at hi
  | cons n ns ih =>
    cases cs with
    | nil => simp at hc
    | cons c cs =>
      cases i with
      | zero =>
        refine ⟨⟨if jsFalsy n.x then some (.num c.1) else n.x,
          if jsFalsy n.y then some (.num c.2) else n.y⟩, by simp [mergeMissing], ?_, ?_⟩
        · simp only [List.getElem_cons_zero] at hx
          simp [hx]
        · simp only [List.getElem_cons_zero]
      | succ j =>
        have hi2 : j < ns.length := by simpa using hi
        have hc2 : j < cs.length := by simpa using hc
        have hx2 : jsFalsy ns[j].x = true := by simpa using hx
        obtain ⟨m, h1, h2, h3⟩ := ih cs j hi2 hc2 hx2
        exact ⟨m, by simpa [mergeMissing] using h1, by simpa using h2, by simpa using h3⟩

/-- Indexed form of the merge-back when an original y coordinate is
falsy: the simulated y is written. -/
theorem mergeMissing_getElem_falsy_y (ns : List SNode) (cs : List (ℚ × ℚ)) (i : ℕ)
    (hi : i < ns.length) (hc : i < cs.length) (hy : jsFalsy ns[i].y = true) :
    ∃ m, (mergeMissing ns cs)[i]? = some m ∧
      m.y = some (.num cs[i].2) ∧
      m.x = (if jsFalsy ns[i].x then some (.num cs[i].1) else ns[i].x) := by
  induction ns generalizing cs i with
  | nil => simp at hi
  | cons n ns ih =>
    cases cs with
    | nil => simp at hc
    | cons c cs =>
      cases i with
      | zero =>
        refine ⟨⟨if jsFalsy n.x then some (.num c.1) else n.x,
          if jsFalsy n.y then some (.num c.2) else n.y⟩, by simp [mergeMissing], ?_, ?_⟩
        · simp only [List.getElem_cons_zero] at hy
          simp [hy]
        · simp only [List.getElem_cons_zero]
      | succ j =>
        have hi2 : j < ns.length := by simpa using hi
        have hc2 : j < cs.length := by simpa using hc
        have hy2 : jsFalsy ns[j].y = true := by simpa using hy
        obtain ⟨m, h1, h2, h3⟩ := ih cs j hi2 hc2 hy2
        exact ⟨m, by simpa [mergeMissing] using h1, by simpa using h2, by simpa using h3⟩

/-- C10: a coordinate equal to 0 behaves exactly like an absent one, on
either axis.  First conjunct: the force layout's merge step overwrites
the x of a node whose x is 0 with the simulated value (y following its
own falsiness).  Second: symmetrically for a node whose y is 0.  Third:
the rescale skips a node with x = 0 or y = 0 entirely, leaving it
unchanged.  Fourth: such nodes contribute nothing to the rescale's
bounding box (which equals the bounding box of the non-falsy nodes
alone). -/
theorem zero_coordinate_treated_as_unpositioned :
    (∀ (ns : List SNode) (cs : List (ℚ × ℚ)) (i : ℕ)
      (hi : i < ns.length) (hc : i < cs.length), ns[i].x = some (.num 0) →
      ∃ m, (mergeMissing ns cs)[i]? = some m ∧ m.x = some (.num cs[i].1) ∧
        m.y = (if jsFalsy ns[i].y then some (.num cs[i].2) else ns[i].y)) ∧
    (∀ (ns : List SNode) (cs : List (ℚ × ℚ)) (i : ℕ)
      (hi : i < ns.length) (hc : i < cs.length), ns[i].y = some (.num 0) →
      ∃ m, (mergeMissing ns cs)[i]? = some m ∧ m.y = some (.num cs[i].2) ∧
        m.x = (if jsFalsy ns[i].x then some (.num cs[i].1) else ns[i].x)) ∧
    (∀ (p : LayoutParams) (nodes : List SNode) (i : ℕ) (hi : i < nodes.length),
      nodes[i].x = some (.num 0) ∨ nodes[i].y = some (.num 0) →
      (scaleNodePositions p nodes)[i]? = some nodes[i]) ∧
    (∀ nodes : List SNode, computeBBox nodes =
      computeBBox (nodes.filter (fun n => !(jsFalsy n.x || jsFalsy n.y)))) := by
  refine ⟨?_, ?_, ?_, ?_⟩
  · intro ns cs i hi hc hx
    exact mergeMissing_getElem_falsy ns cs i hi hc (by simp [hx, jsFalsy])
  · intro ns cs i hi hc hy
    exact mergeMissing_getElem_falsy_y ns cs i hi hc (by simp [hy, jsFalsy])
  · intro p nodes i hi hx
    unfold scaleNodePositions
    rw [List.getElem?_map, List.getElem?_eq_getElem hi]
    show some (scaleOne p (computeBBox nodes) nodes[i]) = some nodes[i]
    refine congrArg some (scaleOne_skip p _ _ ?_)
    rcases hx with hx0 | hy0
    · simp [hx0, jsFalsy]
    · simp [hy0, jsFalsy]
  · intro nodes
    unfold computeBBox
    have key : ∀ (b : BBox) (l : List SNode), l.foldl bboxStep b
        = (l.filter (fun n => !(jsFalsy n.x || jsFalsy n.y))).foldl bboxStep b := by
      intro b l
      induction l generalizing b with
      | nil => rfl
      | cons n l ih =>
        by_cases hn : (jsFalsy n.x || jsFalsy n.y) = true
        · rw [List.foldl_cons, show bboxStep b n = b from by simp [bboxStep, hn]]
          rw [List.filter_cons, hn, if_neg (by decide : ¬((!true) = true))]
          exact ih b
        · have hn2 : (jsFalsy n.x || jsFalsy n.y) = false := by
            cases hcase : (jsFalsy n.x || jsFalsy n.y)
            · rfl
            · exact absurd hcase hn
          rw [List.foldl_cons]
          rw [List.filter_cons, hn2, if_pos (by decide : (!false) = true)]
          rw [List.foldl_cons]
          exact ih (bboxStep b n)
    exact key _ nodes

/-- C10 witness: the four conjuncts applied at concrete inputs covering
both a zero x and a zero y. -/
theorem zero_coordinate_treated_as_unpositioned_witness :
    (∃ m, (mergeMissing [⟨some (.num 0), some (.num 0)⟩] [(7, 8)])[0]? = some m ∧
      m.x = some (.num 7) ∧ m.y = some (.num 8)) ∧
    (∃ m, (mergeMissing [⟨some (.num 7), some (.num 0)⟩] [(3, 4)])[0]? = some m ∧
      m.y = some (.num 4) ∧ m.x = some (.num 7)) ∧
    (scaleNodePositions ⟨500, 500⟩ [⟨some (.num 0), none⟩])[0]? =
      some ⟨some (.num 0), none⟩ ∧
    (scaleNodePositions ⟨500, 500⟩ [⟨some (.num 7), some (.num 0)⟩])[0]? =
      some ⟨some (.num 7), some (.num 0)⟩ ∧
    computeBBox [⟨some (.num 0), some (.num 3)⟩] =
      computeBBox ([⟨some (.num 0), some (.num 3)⟩].filter
        (fun n => !(jsFalsy n.x || jsFalsy n.y))) := by
  refine ⟨?_, ?_, ?_, ?_, ?_⟩
  · obtain ⟨m, h1, h2, h3⟩ := zero_coordinate_treated_as_unpositioned.1
      [⟨some (.num 0), some (.num 0)⟩] [(7, 8)] 0 (by decide) (by decide) rfl
    refine ⟨m, h1, ?_, ?_⟩
    · rw [h2]
      simp
    · rw [h3]
      simp [jsFalsy]
  · obtain ⟨m, h1, h2, h3⟩ := zero_coordinate_treated_as_unpositioned.2.1
      [⟨some (.num 7), some (.num 0)⟩] [(3, 4)] 0 (by decide) (by decide) rfl
    refine ⟨m, h1, ?_, ?_⟩
    · rw [h2]
      simp
    · rw [h3]
      norm_num [jsFalsy]
  · exact zero_coordinate_treated_as_unpositioned.2.2.1 ⟨500, 500⟩ _ 0 (by decide) (Or.inl rfl)
  · exact zero_coordinate_treated_as_unpositioned.2.2.1 ⟨500, 500⟩ _ 0 (by decide) (Or.inr rfl)
  · exact zero_coordinate_treated_as_unpositioned.2.2.2 _

/-!
Protocol lemmas: idMap lookups and per-id writes commute in the ways the
handler loops need.
-/

theorem find?_map_of_id_preserved {f : PNode → PNode} (hf : ∀ n, (f n).id = n.id)
    (l : List PNode) (i : String) :
    (l.map f).find? (fun n => n.id == i) = (l.find? (fun n => n.id == i)).map f := by
  induction l with
  | nil => rfl
  | cons n l ih =>
    by_cases h : (n.id == i) = true
    · have h2 : ((f n).id == i) = true := by rw [hf n]; exact h
      rw [List.map_cons,
        @List.find?_cons_of_pos _ (fun n => n.id == i) (f n) (List.map f l) h2,
        @List.find?_cons_of_pos _ (fun n => n.id == i) n l h]
      rfl
    · have h1 : (n.id == i) = false := by
        cases hc : (n.id == i)
        · rfl
        · exact absurd hc h
      have h2 : ((f n).id == i) = false := by rw [hf n]; exact h1
      rw [List.map_cons,
        @List.find?_cons_of_neg _ (fun n => n.id == i) (f n) (List.map f l)
          (by show ¬((f n).id == i) = true; rw [h2]; exact Bool.false_ne_true),
        @List.find?_cons_of_neg _ (fun n => n.id == i) n l
          (by show ¬(n.id == i) = true; rw [h1]; exact Bool.false_ne_true)]
      exact ih

theorem any_map_of_key_preserved {α : Type} (key : α → String) {f : α → α}
    (hf : ∀ a, key (f a) = key a) (l : List α) (i : String) :
    (l.map f).any (fun a => key a == i) = l.any (fun a => key a == i) := by
  induction l with
  | nil => rfl
  | cons a l ih => simp only [List.map_cons, List.any_cons, hf a, ih]

theorem idMapHasId_setDomainById (g : CSPGraph) (i0 : String)
    (d : Option (List String)) (i : String) :
    idMapHasId (setDomainById g i0 d) i = idMapHasId g i := by
  unfold idMapHasId setDomainById
  rw [any_map_of_key_preserved PNode.id (fun n => by split <;> rfl),
    any_map_of_key_preserved PEdge.id (fun e => by split <;> rfl)]

theorem idMapHasId_setStylesById (g : CSPGraph) (i0 : String)
    (st : Option String) (w : ℚ) (i : String) :
    idMapHasId (setStylesById g i0 st w) i = idMapHasId g i := by
  unfold idMapHasId setStylesById
  rw [any_map_of_key_preserved PNode.id (fun n => by split <;> rfl),
    any_map_of_key_preserved PEdge.id (fun e => by split <;> rfl)]

theorem findNode_isSome_setDomainById (g : CSPGraph) (i0 : String)
    (d : Option (List String)) (i : String) :
    ((setDomainById g i0 d).nodes.find? (fun n => n.id == i)).isSome
      = (g.nodes.find? (fun n => n.id == i)).isSome := by
  unfold setDomainById
  rw [find?_map_of_id_preserved (fun n => by split <;> rfl)]
  cases g.nodes.find? (fun n => n.id == i) <;> rfl

theorem hasId_of_findNode (g : CSPGraph) (i : String)
    (h : (g.nodes.find? (fun n => n.id == i)).isSome = true) :
    idMapHasId g i = true := by
  unfold idMapHasId
  obtain ⟨n, hn, hp⟩ := List.find?_isSome.mp h
  have : g.nodes.any (fun n => n.id == i) = true := List.any_eq_true.mpr ⟨n, hn, hp⟩
  rw [this, Bool.true_or]

theorem nodeDomain_setDomainById_self (g : CSPGraph) (i : String)
    (d : Option (List String))
    (h : (g.nodes.find? (fun n => n.id == i)).isSome = true) :
    nodeDomain (setDomainById g i d) i = d := by
  unfold nodeDomain setDomainById
  rw [find?_map_of_id_preserved (fun n => by split <;> rfl)]
  obtain ⟨n0, hmem⟩ := Option.isSome_iff_exists.mp h
  have hp : (n0.id == i) = true := by
    have := List.find?_some hmem
    simpa using this
  rw [hmem]
  show (if n0.id == i then { n0 with domain := d } else n0).domain = d
  rw [if_pos hp]

theorem nodeDomain_setDomainById_other (g : CSPGraph) (i0 i : String)
    (d : Option (List String)) (hne : i ≠ i0) :
    nodeDomain (setDomainById g i0 d) i = nodeDomain g i := by
  unfold nodeDomain setDomainById
  rw [find?_map_of_id_preserved (fun n => by split <;> rfl)]
  cases hfind : g.nodes.find? (fun n => n.id == i) with
  | none => rfl
  | some n0 =>
    have hp : (n0.id == i) = true := by
      have := List.find?_some hfind
      simpa using this
    have hid : n0.id = i := by simpa using hp
    show (if n0.id == i0 then { n0 with domain := d } else n0).domain = n0.domain
    rw [if_neg]
    intro hcontra
    exact hne (by rw [← hid]; exact (by simpa using hcontra))

theorem setDomainsList_preserves_other (ids : List String) (i : String)
    (hni : i ∉ ids) :
    ∀ (g : CSPGraph) (ds : List (List String)),
      nodeDomain (setDomainsList g ids ds).1 i = nodeDomain g i := by
  induction ids with
  | nil => intro g ds; rfl
  | cons i0 rest ih =>
    intro g ds
    have hne : i ≠ i0 := fun h => hni (h ▸ List.mem_cons_self i0 rest)
    have hnrest : i ∉ rest := fun h => hni (List.mem_cons_of_mem _ h)
    by_cases h0 : idMapHasId g i0 = true
    · rw [show setDomainsList g (i0 :: rest) ds
        = setDomainsList (setDomainById g i0 ds.head?) rest ds.tail from by
          simp [setDomainsList, h0]]
      rw [ih hnrest _ _, nodeDomain_setDomainById_other g i0 i _ hne]
    · rw [show setDomainsList g (i0 :: rest) ds = (g, true) from by
        simp [setDomainsList, h0]]

/-- C2: claim as stated is refuted.  A `SetDomains` with `nodeIds` longer
than `domains` is not rejected: it assigns `domains[i]` to each node by
index, so `n1` gets `["a"]` and `n2` gets `undefined` — both domains
change, and no error is reported. -/
theorem setDomains_mismatch_counterexample :
    (setDomainsList
        ⟨[⟨"n1", some ["x"], ⟨none, none⟩⟩, ⟨"n2", some ["y"], ⟨none, none⟩⟩], []⟩
        ["n1", "n2"] [["a"]]).2 = false ∧
    nodeDomain (setDomainsList
        ⟨[⟨"n1", some ["x"], ⟨none, none⟩⟩, ⟨"n2", some ["y"], ⟨none, none⟩⟩], []⟩
        ["n1", "n2"] [["a"]]).1 "n2" = none ∧
    (setDomainsList
        ⟨[⟨"n1", some ["x"], ⟨none, none⟩⟩, ⟨"n2", some ["y"], ⟨none, none⟩⟩], []⟩
        ["n1", "n2"] [["a"]]).1 ≠
      ⟨[⟨"n1", some ["x"], ⟨none, none⟩⟩, ⟨"n2", some ["y"], ⟨none, none⟩⟩], []⟩ := by
  refine ⟨rfl, rfl, ?_⟩
  decide

/-- C2 (amended): for distinct, known node ids, `SetDomains` assigns
`domains[i]` to node `nodeIds[i]` for every index — with equal lengths
this is exactly the claimed assignment; with mismatched lengths nothing
is rejected and the trailing nodes receive `undefined` (`none`). -/
theorem setDomains_assigns_by_index (g : CSPGraph) (ids : List String)
    (ds : List (List String)) (hnd : ids.Nodup)
    (hknown : ∀ i ∈ ids, (g.nodes.find? (fun n => n.id == i)).isSome = true) :
    (setDomainsList g ids ds).2 = false ∧
    ∀ (k : ℕ) (hk : k < ids.length),
      nodeDomain (setDomainsList g ids ds).1 ids[k] = ds[k]? := by
  induction ids generalizing g ds with
  | nil =>
    refine ⟨rfl, ?_⟩
    intro k hk
    simp at hk
  | cons i0 rest ih =>
    have h0 : (g.nodes.find? (fun n => n.id == i0)).isSome = true :=
      hknown i0 (List.mem_cons_self i0 rest)
    have hid0 : idMapHasId g i0 = true := hasId_of_findNode g i0 h0
    have hred : setDomainsList g (i0 :: rest) ds
        = setDomainsList (setDomainById g i0 ds.head?) rest ds.tail := by
      simp [setDomainsList, hid0]
    have hknown1 : ∀ i ∈ rest,
        (((setDomainById g i0 ds.head?).nodes).find? (fun n => n.id == i)).isSome = true := by
      intro i hi
      rw [findNode_isSome_setDomainById]
      exact hknown i (List.mem_cons_of_mem _ hi)
    obtain ⟨hrec1, hrec2⟩ := ih _ ds.tail (List.Nodup.of_cons hnd) hknown1
    refine ⟨by rw [hred]; exact hrec1, ?_⟩
    intro k hk
    cases k with
    | zero =>
      rw [hred]
      have hni : i0 ∉ rest := (List.nodup_cons.mp hnd).1
      show nodeDomain (setDomainsList (setDomainById g i0 ds.head?) rest ds.tail).1 i0 = ds[0]?
      rw [setDomainsList_preserves_other rest i0 hni _ _,
        nodeDomain_setDomainById_self g i0 ds.head? h0]
      exact List.head?_eq_getElem? ds
    | succ k =>
      have hk2 : k < rest.length := by simpa using hk
      rw [hred]
      show nodeDomain (setDomainsList (setDomainById g i0 ds.head?) rest ds.tail).1 rest[k]
        = ds[k + 1]?
      rw [hrec2 k hk2]
      cases ds with
      | nil => rfl
      | cons d t => exact (List.getElem?_cons_succ).symm

/-- C2 witness: the amended statement at a concrete graph with two known
nodes and equal-length arrays. -/
theorem setDomains_assigns_by_index_witness :
    (["n1", "n2"].Nodup) ∧
    (setDomainsList
        ⟨[⟨"n1", some ["x"], ⟨none, none⟩⟩, ⟨"n2", some ["y"], ⟨none, none⟩⟩], []⟩
        ["n1", "n2"] [["a"], ["b"]]).2 = false ∧
    nodeDomain (setDomainsList
        ⟨[⟨"n1", some ["x"], ⟨none, none⟩⟩, ⟨"n2", some ["y"], ⟨none, none⟩⟩], []⟩
        ["n1", "n2"] [["a"], ["b"]]).1 "n1" = some ["a"] ∧
    nodeDomain (setDomainsList
        ⟨[⟨"n1", some ["x"], ⟨none, none⟩⟩, ⟨"n2", some ["y"], ⟨none, none⟩⟩], []⟩
        ["n1", "n2"] [["a"], ["b"]]).1 "n2" = some ["b"] := by
  have h := setDomains_assigns_by_index
    ⟨[⟨"n1", some ["x"], ⟨none, none⟩⟩, ⟨"n2", some ["y"], ⟨none, none⟩⟩], []⟩
    ["n1", "n2"] [["a"], ["b"]] (by decide) (by decide)
  exact ⟨by decide, h.1, h.2 0 (by decide), h.2 1 (by decide)⟩

theorem highlightArcsList_throw (colour : Option String) (width : ℚ)
    (goods : List String) (bad : String) (rest : List String) :
    ∀ g : CSPGraph, (∀ i ∈ goods, idMapHasId g i = true) → idMapHasId g bad = false →
      highlightArcsList g colour width (goods ++ bad :: rest)
        = ((highlightArcsList g colour width goods).1, true) := by
  induction goods with
  | nil =>
    intro g _ hbad
    simp [highlightArcsList, hbad]
  | cons i0 gs ih =>
    intro g hgood hbad
    have h0 : idMapHasId g i0 = true := hgood i0 (List.mem_cons_self i0 gs)
    rw [List.cons_append]
    rw [show highlightArcsList g colour width (i0 :: (gs ++ bad :: rest))
      = highlightArcsList
          (setStylesById g i0 (if strTruthy colour then colour else currentStroke g i0) width)
          colour width (gs ++ bad :: rest) from by simp [highlightArcsList, h0]]
    rw [show highlightArcsList g colour width (i0 :: gs)
      = highlightArcsList
          (setStylesById g i0 (if strTruthy colour then colour else currentStroke g i0) width)
          colour width gs from by simp [highlightArcsList, h0]]
    exact ih _
      (fun i hi => by rw [idMapHasId_setStylesById]; exact hgood i (List.mem_cons_of_mem _ hi))
      (by rw [idMapHasId_setStylesById]; exact hbad)

theorem highlightNodesList_throw (colour : String)
    (goods : List String) (bad : String) (rest : List String) :
    ∀ g : CSPGraph, (∀ i ∈ goods, idMapHasId g i = true) → idMapHasId g bad = false →
      highlightNodesList g colour (goods ++ bad :: rest)
        = ((highlightNodesList g colour goods).1, true) := by
  induction goods with
  | nil =>
    intro g _ hbad
    simp [highlightNodesList, hbad]
  | cons i0 gs ih =>
    intro g hgood hbad
    have h0 : idMapHasId g i0 = true := hgood i0 (List.mem_cons_self i0 gs)
    rw [List.cons_append]
    rw [show highlightNodesList g colour (i0 :: (gs ++ bad :: rest))
      = highlightNodesList (setStylesById g i0 (some colour) 2) colour (gs ++ bad :: rest)
      from by simp [highlightNodesList, h0]]
    rw [show highlightNodesList g colour (i0 :: gs)
      = highlightNodesList (setStylesById g i0 (some colour) 2) colour gs
      from by simp [highlightNodesList, h0]]
    exact ih _
      (fun i hi => by rw [idMapHasId_setStylesById]; exact hgood i (List.mem_cons_of_mem _ hi))
      (by rw [idMapHasId_setStylesById]; exact hbad)

theorem setDomainsList_throw (goods : List String) (bad : String) (rest : List String) :
    ∀ (g : CSPGraph) (ds : List (List String)),
      (∀ i ∈ goods, idMapHasId g i = true) → idMapHasId g bad = false →
      setDomainsList g (goods ++ bad :: rest) ds = ((setDomainsList g goods ds).1, true) := by
  induction goods with
  | nil =>
    intro g ds _ hbad
    simp [setDomainsList, hbad]
  | cons i0 gs ih =>
    intro g ds hgood hbad
    have h0 : idMapHasId g i0 = true := hgood i0 (List.mem_cons_self i0 gs)
    rw [List.cons_append]
    rw [show setDomainsList g (i0 :: (gs ++ bad :: rest)) ds
      = setDomainsList (setDomainById g i0 ds.head?) (gs ++ bad :: rest) ds.tail
      from by simp [setDomainsList, h0]]
    rw [show setDomainsList g (i0 :: gs) ds
      = setDomainsList (setDomainById g i0 ds.head?) gs ds.tail
      from by simp [setDomainsList, h0]]
    exact ih _ _
      (fun i hi => by rw [idMapHasId_setDomainById]; exact hgood i (List.mem_cons_of_mem _ hi))
      (by rw [idMapHasId_setDomainById]; exact hbad)

/-- C3: claim as stated is refuted.  A `HighlightNodes` naming a known id
before an unknown one does change graph state: the known node's stroke is
set before the unknown id throws. -/
theorem mutation_unknown_id_counterexample :
    (applyMut ⟨[⟨"n1", none, ⟨none, none⟩⟩], []⟩
      (.highlightNodesEvent ["n1", "zz"] "red")).2 = true ∧
    (applyMut ⟨[⟨"n1", none, ⟨none, none⟩⟩], []⟩
      (.highlightNodesEvent ["n1", "zz"] "red")).1 ≠
      ⟨[⟨"n1", none, ⟨none, none⟩⟩], []⟩ := by
  constructor <;> with_unfolding_all decide

/-- C3 (amended): an inbound mutation event (explicit-ids HighlightArcs,
HighlightNodes, SetDomains) whose id list is a known prefix followed by
an unknown id aborts with a thrown error exactly at the unknown id: the
result equals the run over the known prefix alone (those mutations
persist), with the error flag set; each event is dispatched independently,
so later events are still processed. -/
theorem mutation_unknown_id_aborts_after_prefix (g : CSPGraph) (ev : MutEvent)
    (goods : List String) (bad : String) (rest : List String)
    (hshape : evIds ev = goods ++ bad :: rest)
    (hgood : ∀ i ∈ goods, idMapHasId g i = true)
    (hbad : idMapHasId g bad = false) :
    applyMut g ev = ((applyMut g (setEvIds ev goods)).1, true) := by
  cases ev with
  | highlightArcsEvent arcIds colour style =>
    cases arcIds with
    | none => simp [evIds] at hshape
    | some ids =>
      have hids : ids = goods ++ bad :: rest := hshape
      subst hids
      show highlightArcs g (some (goods ++ bad :: rest)) colour style
        = ((highlightArcs g (some goods) colour style).1, true)
      unfold highlightArcs
      exact highlightArcsList_throw colour _ goods bad rest g hgood hbad
  | highlightNodesEvent ids colour =>
    have hids : ids = goods ++ bad :: rest := hshape
    subst hids
    exact highlightNodesList_throw colour goods bad rest g hgood hbad
  | setDomainsEvent ids ds =>
    have hids : ids = goods ++ bad :: rest := hshape
    subst hids
    exact setDomainsList_throw goods bad rest g ds hgood hbad

/-- C3 witness: the amended statement at a concrete graph and event. -/
theorem mutation_unknown_id_aborts_after_prefix_witness :
    evIds (.highlightNodesEvent ["n1", "zz"] "red") = ["n1"] ++ "zz" :: [] ∧
    idMapHasId ⟨[⟨"n1", none, ⟨none, none⟩⟩], []⟩ "zz" = false ∧
    applyMut ⟨[⟨"n1", none, ⟨none, none⟩⟩], []⟩ (.highlightNodesEvent ["n1", "zz"] "red")
      = ((applyMut ⟨[⟨"n1", none, ⟨none, none⟩⟩], []⟩
          (setEvIds (.highlightNodesEvent ["n1", "zz"] "red") ["n1"])).1, true) :=
  ⟨rfl, by decide,
    mutation_unknown_id_aborts_after_prefix ⟨[⟨"n1", none, ⟨none, none⟩⟩], []⟩
      (.highlightNodesEvent ["n1", "zz"] "red") ["n1"] "zz" [] rfl
      (by decide) (by decide)⟩

/-- C8: the `InitialRender` event (and its bootstrap) is sent exactly
once per logical view instance: re-rendering any number of times after
the first render changes nothing, and the count of `initial_render` in
the sent log rises by exactly one. -/
theorem render_initial_once (s : ViewState) (h : s.previouslyRendered = false)
    (n : ℕ) (hn : 1 ≤ n) :
    render^[n] s = render s ∧
    (render^[n] s).sent.count "initial_render" = s.sent.count "initial_render" + 1 := by
  have h1 : (render s).previouslyRendered = true := by
    unfold render
    rw [if_neg (by rw [h]; exact Bool.false_ne_true)]
  have hfix : ∀ t : ViewState, t.previouslyRendered = true → render t = t := by
    intro t ht
    unfold render
    rw [if_pos ht]
  obtain ⟨j, rfl⟩ : ∃ j, n = j + 1 := ⟨n - 1, by omega⟩
  have hiter : render^[j + 1] s = render s := by
    rw [Function.iterate_succ_apply]
    exact Function.iterate_fixed (hfix (render s) h1) j
  refine ⟨hiter, ?_⟩
  rw [hiter]
  unfold render
  rw [if_neg (by rw [h]; exact Bool.false_ne_true)]
  simp [List.count_append]

/-- C8 witness: two successive renders of a fresh view state. -/
theorem render_initial_once_witness :
    (render^[2] (⟨false, [], ⟨[], []⟩⟩ : ViewState)).sent.count "initial_render"
      = ([] : List String).count "initial_render" + 1 :=
  (render_initial_once ⟨false, [], ⟨[], []⟩⟩ rfl 2 (by norm_num)).2

/-- C9: every `ChooseDomainSplit` produces exactly one `DomainSplitReply`;
its domain field is null exactly when the user cancelled the prompt, and
otherwise it is the user-provided comma-separated value list with empty
entries dropped. -/
theorem choose_domain_split_reply (response : Option String) :
    (chooseDomainSplit response).length = 1 ∧
    ∀ m ∈ chooseDomainSplit response, m.event = "domain_split" ∧
      (m.domain = none ↔ response = none) ∧
      ∀ s, response = some s →
        m.domain = some ((splitComma s).filter (fun d => !(d == ""))) := by
  refine ⟨rfl, ?_⟩
  intro m hm
  cases response with
  | none =>
    have hm2 : m = ⟨"domain_split", none⟩ := by simpa [chooseDomainSplit] using hm
    subst hm2
    exact ⟨rfl, by simp, by intro s hs; cases hs⟩
  | some s0 =>
    have hm2 : m = ⟨"domain_split",
        some ((splitComma s0).filter (fun d => !(d == "")))⟩ := by
      simpa [chooseDomainSplit] using hm
    subst hm2
    refine ⟨rfl, by simp, ?_⟩
    intro s hs
    cases hs
    rfl

/-- C9 witness: a concrete subset choice and a cancellation. -/
theorem choose_domain_split_reply_witness :
    chooseDomainSplit (some "a,c") = [⟨"domain_split", some ["a", "c"]⟩] ∧
    chooseDomainSplit none = [⟨"domain_split", none⟩] ∧
    ∀ m ∈ chooseDomainSplit (some "a,c"),
      m.domain = some ((splitComma "a,c").filter (fun d => !(d == ""))) :=
  ⟨by decide, by decide,
    fun m hm => ((choose_domain_split_reply (some "a,c")).2 m hm).2.2 "a,c" rfl⟩

theorem ratSqrt_sq (q : ℚ) (hq : 0 ≤ q) : ratSqrt (q ^ 2) = q := by
  unfold ratSqrt
  rw [pow_two]
  have hnum : (q * q).num.toNat = q.num.natAbs * q.num.natAbs := by
    rw [Rat.mul_self_num, ← Int.natAbs_mul_self, Int.toNat_natCast]
  have hden : (q * q).den = q.den * q.den := Rat.mul_self_den q
  rw [hnum, hden, Nat.sqrt_eq, Nat.sqrt_eq]
  have h0 : 0 ≤ q.num := Rat.num_nonneg.mpr hq
  have hq2 : ((q.num.natAbs : ℕ) : ℚ) = ((q.num : ℤ) : ℚ) := by
    rw [Int.cast_natAbs]
    rw [abs_of_nonneg]
    exact_mod_cast h0
  rw [hq2, Rat.num_div_den]

theorem treeGeom_two_chain (xNorm : String → ℚ) (w h : ℚ) (hw : 30 < w) :
    ∃ rA rB, treeNodeGeom xNorm ⟨w, h⟩ [["A"], ["B"]]
      = [("A", w / 2, h / 3, rA), ("B", w / 2, 2 * h / 3, rB)] := by
  refine ⟨if 50 ≤ w / 2 - 15 then 50 else w / 2 - 15,
    if 50 ≤ w / 2 - 15 then 50 else w / 2 - 15, ?_⟩
  unfold treeNodeGeom depthY
  rw [show ([["A"], ["B"]] : List (List String)).enum = [(0, ["A"]), (1, ["B"])] from rfl]
  rw [List.flatMap_cons, List.flatMap_cons, List.flatMap_nil]
  rw [show (["A"] : List String).enum = [(0, "A")] from rfl]
  rw [show (["B"] : List String).enum = [(0, "B")] from rfl]
  simp only [List.map_cons, List.map_nil]
  norm_num
  rw [show h - h / 3 = 2 * h / 3 from by ring]
  rw [if_neg (show ¬(w / 2 ≤ 15) from by linarith)]
  exact ⟨fun hcon => absurd hcon (by linarith), rfl⟩

theorem overlapPass_two_cycle (geo : List (String × ℚ × ℚ × ℚ)) (xa ya yb : ℚ)
    (hA : posOf geo "A" = some (xa, ya)) (hB : posOf geo "B" = some (xa, yb))
    (hy : ya < yb) :
    overlapPass geo (setEdgeEndpoints geo [mkTEdge "A" "B", mkTEdge "B" "A"])
      = [⟨"A", "B", some xa, some ya, some xa, some yb,
            ⟨some true, some (.num (xa - 5)), some (.num ya),
              some (.num (xa - 5)), some (.num yb)⟩⟩,
         ⟨"B", "A", some xa, some yb, some xa, some ya,
            ⟨some true, some (.num (xa + 5)), some (.num yb),
              some (.num (xa + 5)), some (.num ya)⟩⟩] := by
  have hset : setEdgeEndpoints geo [mkTEdge "A" "B", mkTEdge "B" "A"]
      = [⟨"A", "B", some xa, some ya, some xa, some yb, ⟨none, none, none, none, none⟩⟩,
         ⟨"B", "A", some xa, some yb, some xa, some ya, ⟨none, none, none, none, none⟩⟩] := by
    unfold setEdgeEndpoints mkTEdge
    simp [hA, hB]
  have hyne : yb - ya ≠ 0 := ne_of_gt (sub_pos.mpr hy)
  have hdist : jsSqrt (jadd (jsPow2 (jsub (JSNum.num yb) (JSNum.num ya)))
      (jsPow2 (jsub (JSNum.num xa) (JSNum.num xa)))) = JSNum.num (yb - ya) := by
    rw [jsub_num yb ya, jsub_num xa xa]
    unfold jsPow2
    rw [jmul_num (yb - ya) (yb - ya), jmul_num (xa - xa) (xa - xa), jadd_num]
    show (if ((yb - ya) * (yb - ya) + (xa - xa) * (xa - xa)) < 0 then JSNum.nan
      else JSNum.num (ratSqrt ((yb - ya) * (yb - ya) + (xa - xa) * (xa - xa))))
      = JSNum.num (yb - ya)
    rw [if_neg (not_lt.mpr (add_nonneg (mul_self_nonneg (yb - ya)) (mul_self_nonneg (xa - xa))))]
    congr 1
    rw [show (yb - ya) * (yb - ya) + (xa - xa) * (xa - xa) = (yb - ya) ^ 2 from by ring]
    exact ratSqrt_sq _ (by linarith)
  have s00 : overlapUpdate geo
      [⟨"A", "B", some xa, some ya, some xa, some yb, ⟨none, none, none, none, none⟩⟩,
       ⟨"B", "A", some xa, some yb, some xa, some ya, ⟨none, none, none, none, none⟩⟩] 0 0
      = [⟨"A", "B", some xa, some ya, some xa, some yb, ⟨none, none, none, none, none⟩⟩,
         ⟨"B", "A", some xa, some yb, some xa, some ya, ⟨none, none, none, none, none⟩⟩] := by
    simp [overlapUpdate]
  have s01 : overlapUpdate geo
      [⟨"A", "B", some xa, some ya, some xa, some yb, ⟨none, none, none, none, none⟩⟩,
       ⟨"B", "A", some xa, some yb, some xa, some ya, ⟨none, none, none, none, none⟩⟩] 0 1
      = [⟨"A", "B", some xa, some ya, some xa, some yb,
            ⟨some true, some (.num (xa - 5)), some (.num ya),
              some (.num (xa - 5)), some (.num yb)⟩⟩,
         ⟨"B", "A", some xa, some yb, some xa, some ya,
            ⟨some true, some (.num (xa + 5)), some (.num yb),
              some (.num (xa + 5)), some (.num ya)⟩⟩] := by
    unfold overlapUpdate
    simp only [List.getElem?_cons_zero, List.getElem?_cons_succ]
    rw [if_pos (by decide)]
    simp only [hA, hB, Option.map_some', jsNumOf, hdist]
    rw [jsub_num yb ya, jsub_num xa xa]
    rw [jdiv_num (yb - ya) (yb - ya) hyne, jdiv_num (xa - xa) (yb - ya) hyne]
    rw [div_self hyne, sub_self, zero_div]
    simp only [jmul_num, jadd_num, jsub_num]
    norm_num
    ring
  have s10 : overlapUpdate geo
      [⟨"A", "B", some xa, some ya, some xa, some yb,
          ⟨some true, some (.num (xa - 5)), some (.num ya),
            some (.num (xa - 5)), some (.num yb)⟩⟩,
       ⟨"B", "A", some xa, some yb, some xa, some ya,
          ⟨some true, some (.num (xa + 5)), some (.num yb),
            some (.num (xa + 5)), some (.num ya)⟩⟩] 1 0
      = [⟨"A", "B", some xa, some ya, some xa, some yb,
            ⟨some true, some (.num (xa - 5)), some (.num ya),
              some (.num (xa - 5)), some (.num yb)⟩⟩,
         ⟨"B", "A", some xa, some yb, some xa, some ya,
            ⟨some true, some (.num (xa + 5)), some (.num yb),
              some (.num (xa + 5)), some (.num ya)⟩⟩] := by
    have hne : jsStrictEq (some (JSNum.num (xa + 5))) (some (JSNum.num (xa - 5))) = false := by
      show (JSNum.num (xa + 5) == JSNum.num (xa - 5)) = false
      exact beq_eq_false_iff_ne.mpr (by
        intro hc
        have h2 := JSNum.num.inj hc
        linarith)
    unfold overlapUpdate
    simp only [List.getElem?_cons_zero, List.getElem?_cons_succ]
    simp [hne]
  have s11 : overlapUpdate geo
      [⟨"A", "B", some xa, some ya, some xa, some yb,
          ⟨some true, some (.num (xa - 5)), some (.num ya),
            some (.num (xa - 5)), some (.num yb)⟩⟩,
       ⟨"B", "A", some xa, some yb, some xa, some ya,
          ⟨some true, some (.num (xa + 5)), some (.num yb),
            some (.num (xa + 5)), some (.num ya)⟩⟩] 1 1
      = [⟨"A", "B", some xa, some ya, some xa, some yb,
            ⟨some true, some (.num (xa - 5)), some (.num ya),
              some (.num (xa - 5)), some (.num yb)⟩⟩,
         ⟨"B", "A", some xa, some yb, some xa, some ya,
            ⟨some true, some (.num (xa + 5)), some (.num yb),
              some (.num (xa + 5)), some (.num ya)⟩⟩] := by
    simp [overlapUpdate]
  unfold overlapPass
  rw [hset]
  simp only [List.length_cons, List.length_nil]
  norm_num
  rw [show List.range 2 = [0, 1] from by decide]
  simp only [List.foldl_cons, List.foldl_nil]
  rw [s00, s01, s10, s11]

/-- C7: claim as stated is refuted.  A graph may contain the two-node
cycle (edges A to B and B to A) while its built hierarchy contains zero
parent/child edges between A and B: with nodes [R, A, B] and edges
R to A, R to B, A to B, B to A, both A and B are attached under R first,
so when the reciprocal pair is processed both targets are already in
`nodeMapInTree` and both skip rules drop the edges. -/
theorem tree_layout_two_cycle_counterexample :
    childrenOf (buildHierarchy "R"
      [("R", "A"), ("R", "B"), ("A", "B"), ("B", "A")]).childrenMap "A" = [] ∧
    childrenOf (buildHierarchy "R"
      [("R", "A"), ("R", "B"), ("A", "B"), ("B", "A")]).childrenMap "B" = [] ∧
    childrenOf (buildHierarchy "R"
      [("R", "A"), ("R", "B"), ("A", "B"), ("B", "A")]).childrenMap "R" = ["A", "B"] := by
  decide

/-- C7 (amended): on the minimal reciprocal-pair graph — nodes A and B
with the edges A to B and B to A, processed in that order — the tree
layout terminates (all functions here are total), the built hierarchy
contains exactly one parent/child edge between A and B (A's children are
exactly [B], B has none: the reverse edge is skipped by the loop-breaking
rules), both edges are marked overlapped, and they are rendered with
non-zero, mirrored perpendicular offsets of fixed radius 5 — the A-to-B
edge displaced by -5 and the B-to-A edge by +5 along the axis
perpendicular to the joining line — for every width above 30, every
positive height and every breadth coordinate assignment.  In larger
graphs containing the pair the guarantee can fail (see the
counterexample). -/
theorem tree_layout_two_cycle (w h : ℚ) (xNorm : String → ℚ) (hw : 30 < w) (hh : 0 < h) :
    childrenOf (buildHierarchy "A" [("A", "B"), ("B", "A")]).childrenMap "A" = ["B"] ∧
    childrenOf (buildHierarchy "A" [("A", "B"), ("B", "A")]).childrenMap "B" = [] ∧
    (d3TreeLayout xNorm none ["A", "B"] [mkTEdge "A" "B", mkTEdge "B" "A"] ⟨w, h⟩).2
      = [⟨"A", "B", some (w / 2), some (h / 3), some (w / 2), some (2 * h / 3),
            ⟨some true, some (.num (w / 2 - 5)), some (.num (h / 3)),
              some (.num (w / 2 - 5)), some (.num (2 * h / 3))⟩⟩,
         ⟨"B", "A", some (w / 2), some (2 * h / 3), some (w / 2), some (h / 3),
            ⟨some true, some (.num (w / 2 + 5)), some (.num (2 * h / 3)),
              some (.num (w / 2 + 5)), some (.num (h / 3))⟩⟩] := by
  refine ⟨by decide, by decide, ?_⟩
  obtain ⟨rA, rB, hgeo⟩ := treeGeom_two_chain xNorm w h hw
  have hposA : posOf (treeNodeGeom xNorm ⟨w, h⟩ [["A"], ["B"]]) "A"
      = some (w / 2, h / 3) := by
    rw [hgeo]
    simp [posOf]
  have hposB : posOf (treeNodeGeom xNorm ⟨w, h⟩ [["A"], ["B"]]) "B"
      = some (w / 2, 2 * h / 3) := by
    rw [hgeo]
    simp [posOf]
  have hy2 : h / 3 < 2 * h / 3 := by linarith
  have hbuild : buildHierarchy "A" [("A", "B"), ("B", "A")]
      = ⟨[("A", ["B"]), ("B", [])], ["B"]⟩ := by decide
  have hlevels : treeLevels [("A", ["B"]), ("B", [])] "A" = [["A"], ["B"]] := by decide
  unfold d3TreeLayout
  simp only [List.map_cons, List.map_nil, mkTEdge]
  rw [hbuild]
  rw [hlevels]
  exact overlapPass_two_cycle _ _ _ _ hposA hposB hy2

/-- C7 witness: the layout evaluated on a 300 by 300 canvas. -/
theorem tree_layout_two_cycle_witness :
    ((30 : ℚ) < 300 ∧ (0 : ℚ) < 300) ∧
    (d3TreeLayout (fun _ => 1 / 2) none ["A", "B"]
        [mkTEdge "A" "B", mkTEdge "B" "A"] ⟨300, 300⟩).2
      = [⟨"A", "B", some 150, some 100, some 150, some 200,
            ⟨some true, some (.num 145), some (.num 100),
              some (.num 145), some (.num 200)⟩⟩,
         ⟨"B", "A", some 150, some 200, some 150, some 100,
            ⟨some true, some (.num 155), some (.num 200),
              some (.num 155), some (.num 100)⟩⟩] := by
  refine ⟨⟨by norm_num, by norm_num⟩, ?_⟩
  have h := (tree_layout_two_cycle 300 300 (fun _ => 1 / 2)
    (by norm_num) (by norm_num)).2.2
  rw [h]
  norm_num
